import Mathlib

/-!
Verification model of `src/src/pages/index.tsx` (the SketchPro drawing app).

The component's state hooks become the fields of `Session`; the event
handlers and effects become functions `Session → Session`.  Canvas pixel
contents are modelled abstractly by the inductive `Canvas`: drawing a decoded
snapshot onto a cleared canvas reproduces the captured pixel state, so a
snapshot stores the `Canvas` value it encodes, together with a flag telling
whether the browser `Image` decode succeeds (a `toDataURL` output always
decodes; the `false` flag models the spec's malformed/unavailable raster
data).  Asynchronous decodes are modelled by their settled effect: each
operation's `img.onload` callback either fires (decode succeeds) or never
fires (decode fails), with no interleaving of further operations.
-/

namespace Sketch

/-- Tool kinds (index.tsx:13). -/
inductive Tool where
  | brush
  | eraser
  | rectangle
  | circle
deriving DecidableEq

/-- A painted shape primitive: `ctx.rect(x, y, w, h)` or
`ctx.arc(cx, cy, r, 0, 2π)` (index.tsx:177-184). -/
inductive Shape where
  | rect (x y w h : Int)
  | circle (cx cy r : Int)
deriving DecidableEq

/-- Canvas pixel contents, abstractly: blank (after `clearRect`), or a base
state with one freehand stroke segment painted on top (`lineTo`/`stroke`,
index.tsx:157-159), or a base state with one shape primitive stroked on top
(index.tsx:172-186).  Redrawing a decoded snapshot on a cleared canvas
reproduces the snapshotted pixel state, so it needs no constructor. -/
inductive Canvas where
  | blank
  | withStroke (base : Canvas) (x y : Int) (style : String) (width : Int)
  | withShape (base : Canvas) (sh : Shape) (style : String) (width : Int)
deriving DecidableEq

/-- An encoded bitmap, as produced by `canvas.toDataURL('image/png')`.
`image` is the pixel content it encodes; `ok` tells whether decoding it via
`new Image()` fires `onload` (true for every `toDataURL` output; `false`
models the spec's malformed/unavailable raster data, whose `onload` never
fires and which is reported nowhere). -/
structure Png where
  image : Canvas
  ok : Bool
deriving DecidableEq

/-- A layer (index.tsx:24-26).  `data` holds the layer's encoded raster; the
initial empty string `''` (falsy in every guard of the source) is modelled
as `none`. -/
structure Layer where
  id : String
  name : String
  visible : Bool
  data : Option Png
deriving DecidableEq

/-- The component state relevant to the core (index.tsx:12-27). -/
structure Session where
  tool : Tool
  color : String
  brushSize : Int
  darkMode : Bool
  isDrawing : Bool
  startX : Int
  startY : Int
  history : List Png
  currentStep : Int
  layers : List Layer
  activeLayer : String
  canvas : Canvas
deriving DecidableEq

/-! ### Decimal numerals

`addLayer` computes `(parseInt(lastId || '0') + 1).toString()`.  We model
`toString` on numbers and `parseInt` for canonical decimal numerals (JS
`parseInt` also accepts signs, blanks and numeric prefixes; every id the
program builds is a canonical numeral, where the two agree). -/

/-- Decimal digit character of a value below ten, as the code point 48 + d. -/
def digitChar (d : Nat) : Char := Char.ofNat (48 + d % 10)

/-- Value of a decimal digit character; code points 48–57 are the digits. -/
def digitVal (c : Char) : Option Nat :=
  if 48 ≤ c.toNat ∧ c.toNat ≤ 57 then some (c.toNat - 48) else none

/-- Decimal digits of `n`, most significant first, prepended to `rest`.
The fuel argument (any value above `n`) makes the recursion structural. -/
def natDigitsAux : Nat → Nat → List Char → List Char
  | 0, _, rest => rest
  | fuel + 1, n, rest =>
    if n < 10 then digitChar n :: rest
    else natDigitsAux fuel (n / 10) (digitChar (n % 10) :: rest)

/-- Decimal representation of a number (JS number-to-string). -/
def natToString (n : Nat) : String := String.mk (natDigitsAux (n + 1) n [])

/-- Fold decimal digit characters left to right; fails on a non-digit. -/
def parseDigitsAux : List Char → Nat → Option Nat
  | [], acc => some acc
  | c :: cs, acc =>
    match digitVal c with
    | some d => parseDigitsAux cs (10 * acc + d)
    | none => none

/-- Parse a canonical decimal numeral. -/
def parseNat (s : String) : Option Nat :=
  match s.data with
  | [] => none
  | cs => parseDigitsAux cs 0

/-- Model of `parseInt(s || '0')` for canonical numerals, defaulting to 0. -/
def jsParseIntD (s : String) : Nat :=
  (parseNat (if s = "" then "0" else s)).getD 0

/-- Number of decimal digits, fueled like `natDigitsAux`. -/
def numDigitsAux : Nat → Nat → Nat
  | 0, _ => 0
  | fuel + 1, n => if n < 10 then 1 else numDigitsAux fuel (n / 10) + 1

/-! ### Operations -/

/-- Stroke style installed by the effect on `[color, brushSize, tool]`
(index.tsx:74-79): the eraser paints with the constant `'#ffffff'`,
any other tool with the stored color. -/
def effectiveStrokeStyle (tool : Tool) (color : String) : String :=
  if tool = Tool.eraser then "#ffffff" else color

/-- Background color of the canvas element: its class is
`darkMode ? 'bg-gray-700' : 'bg-white'` (index.tsx:625); hex values are
Tailwind's `gray-700` and `white`. -/
def canvasBackground (darkMode : Bool) : String :=
  if darkMode then "#374151" else "#ffffff"

/-- `onClick={() => setTool(t)}` (index.tsx:511 etc.). -/
def setTool (s : Session) (t : Tool) : Session := { s with tool := t }

/-- The `setLayers` updater used throughout the source: rewrite the `data`
of the layer with the given id, leave every other layer unchanged. -/
def updLayerData (aid : String) (d : Option Png) (l : Layer) : Layer :=
  if l.id = aid then { l with data := d } else l

/-- Body of the effect on `[isDrawing]` when `isDrawing` is false
(index.tsx:82-103): snapshot the canvas, store it into the active layer,
append it to history — truncating forward entries first when the cursor is
not at the end — and advance the cursor.  (For `currentStep ≤ -2`,
unreachable in the program, JS `slice(0, currentStep+1)` would count its
negative end from the right; `Int.toNat` clamps to 0 instead.) -/
def commitSnapshot (s : Session) : Session :=
  let newData : Png := { image := s.canvas, ok := true }
  { s with
    layers := s.layers.map (updLayerData s.activeLayer (some newData)),
    history :=
      if s.currentStep < (s.history.length : Int) - 1 then
        s.history.take (s.currentStep + 1).toNat ++ [newData]
      else
        s.history ++ [newData],
    currentStep := s.currentStep + 1 }

/-- One completed draw action: the pointer-event sequence's net effect on
the canvas (`paint`), followed by the commit that the `[isDrawing]` effect
performs when `stopDrawing` resets `isDrawing` (index.tsx:82-103,193-199). -/
def drawAction (s : Session) (paint : Canvas → Canvas) : Session :=
  commitSnapshot { s with canvas := paint s.canvas }

/-- Shape painted by the preview branch of `draw` (index.tsx:177-184):
`rect(startX, startY, x - startX, y - startY)`, or for the circle tool an
arc centered at the anchor with radius `max(|x - startX|, |y - startY|)`. -/
def shapeOf (tool : Tool) (startX startY x y : Int) : Shape :=
  if tool = Tool.rectangle then
    Shape.rect startX startY (x - startX) (y - startY)
  else
    Shape.circle startX startY (max |x - startX| |y - startY|)

/-- The `draw` pointer-move handler (index.tsx:137-191).  No-op unless a
draw is in progress.  Brush/eraser extend and stroke the current path; the
shape tools clear the canvas, then (asynchronously) redraw the active
layer's decoded raster and stroke the preview shape on top — so when the
layer raster is absent or fails to decode the canvas is left cleared. -/
def draw (s : Session) (x y : Int) : Session :=
  if s.isDrawing = false then s
  else
    match s.tool with
    | Tool.brush | Tool.eraser =>
      { s with canvas :=
          Canvas.withStroke s.canvas x y (effectiveStrokeStyle s.tool s.color) s.brushSize }
    | Tool.rectangle | Tool.circle =>
      match (s.layers.find? fun l => l.id == s.activeLayer).bind Layer.data with
      | some png =>
        if png.ok then
          { s with canvas :=
              (Canvas.withShape png.image (shapeOf s.tool s.startX s.startY x y)
                s.color s.brushSize) }
        else { s with canvas := Canvas.blank }
      | none => { s with canvas := Canvas.blank }

/-- `drawFromHistory(step)` (index.tsx:216-238): clear the canvas, then if
`step >= 0 && history[step]`, asynchronously decode that entry; on decode
success draw it and store it into the active layer's data, on failure leave
the canvas cleared. -/
def drawFromHistory (s : Session) (step : Int) : Session :=
  match (if 0 ≤ step then s.history.get? step.toNat else none) with
  | some png =>
    if png.ok then
      { s with
        canvas := png.image,
        layers := s.layers.map (updLayerData s.activeLayer (some png)) }
    else { s with canvas := Canvas.blank }
  | none => { s with canvas := Canvas.blank }

/-- `undo` (index.tsx:202-207): no-op unless `currentStep > 0`; otherwise
step the cursor back and replay that entry. -/
def undo (s : Session) : Session :=
  if 0 < s.currentStep then
    drawFromHistory { s with currentStep := s.currentStep - 1 } (s.currentStep - 1)
  else s

/-- `redo` (index.tsx:209-214): no-op unless `currentStep < history.length - 1`;
otherwise step the cursor forward and replay that entry. -/
def redo (s : Session) : Session :=
  if s.currentStep < (s.history.length : Int) - 1 then
    drawFromHistory { s with currentStep := s.currentStep + 1 } (s.currentStep + 1)
  else s

/-- `clearCanvas` (index.tsx:241-260): blank the canvas, append the cleared
snapshot to history (with no truncation of forward entries), advance the
cursor, and store the cleared snapshot into the active layer. -/
def clearCanvas (s : Session) : Session :=
  let clearedData : Png := { image := Canvas.blank, ok := true }
  { s with
    canvas := Canvas.blank,
    history := s.history ++ [clearedData],
    currentStep := s.currentStep + 1,
    layers := s.layers.map (updLayerData s.activeLayer (some clearedData)) }

/-- `addLayer` (index.tsx:263-274): the new id is
`(parseInt(layers[layers.length - 1]?.id || '0') + 1).toString()` — the
increment of the LAST layer's id — the new layer's raster is seeded with the
currently displayed canvas, and it is appended and made active. -/
def addLayer (s : Session) : Session :=
  let lastId := ((s.layers.getLast?).map Layer.id).getD ""
  let newId := natToString (jsParseIntD lastId + 1)
  let newLayer : Layer :=
    { id := newId, name := "Layer " ++ newId, visible := true,
      data := some { image := s.canvas, ok := true } }
  { s with layers := s.layers ++ [newLayer], activeLayer := newId }

/-- `toggleLayerVisibility` (index.tsx:276-282). -/
def toggleLayerVisibility (s : Session) (id : String) : Session :=
  { s with layers := s.layers.map fun l =>
      if l.id = id then { l with visible := !l.visible } else l }

/-- `switchLayer(id)` (index.tsx:284-308): store the current canvas into the
currently active layer's data, set the active layer to `id`
(unconditionally, whether or not such a layer exists), then look `id` up in
the pre-update `layers` (the handler closes over the render-time value) and,
if it has a raster that decodes, clear the canvas inside `onload` and draw
it; otherwise the canvas is left untouched. -/
def switchLayer (s : Session) (id : String) : Session :=
  let currentData : Png := { image := s.canvas, ok := true }
  { s with
    layers := s.layers.map (updLayerData s.activeLayer (some currentData)),
    activeLayer := id,
    canvas :=
      match (s.layers.find? fun l => l.id == id).bind Layer.data with
      | some png => if png.ok then png.image else s.canvas
      | none => s.canvas }

/-- Initial component state (index.tsx:12-27). -/
def initialSession : Session :=
  { tool := Tool.brush, color := "#000000", brushSize := 5, darkMode := false,
    isDrawing := false, startX := 0, startY := 0, history := [],
    currentStep := -1,
    layers := [{ id := "1", name := "Layer 1", visible := true, data := none }],
    activeLayer := "1", canvas := Canvas.blank }

/-- Session right after mount: the effect with dependency array
`[isDrawing]` also runs once after the initial render, with
`isDrawing === false`, committing the blank canvas as history entry 0
(index.tsx:82-103). -/
def mountedSession : Session := commitSnapshot initialSession

/-- Run a sequence of completed draw actions. -/
def runDraws : Session → List (Canvas → Canvas) → Session
  | s, [] => s
  | s, p :: ps => runDraws (drawAction s p) ps

/-- Raster data of the layer with the given id, when such a layer exists. -/
def layerData (s : Session) (id : String) : Option (Option Png) :=
  (s.layers.find? fun l => l.id == id).map Layer.data

/-- Numeric value of a layer's id. -/
def layerIdNum (l : Layer) : Nat := jsParseIntD l.id

/-- Well-formedness of the layer list, true of every store the program's
operations build: ids are canonical decimal numerals, strictly increasing
in list order. -/
@[reducible] def layersWF (ls : List Layer) : Prop :=
  (∀ l ∈ ls, l.id = natToString (layerIdNum l)) ∧
    (ls.map layerIdNum).Chain' (· < ·)

/-- Session well-formedness: well-formed layer list and an active id that
names an existing layer. -/
@[reducible] def SessionWF (s : Session) : Prop :=
  layersWF s.layers ∧ s.activeLayer ∈ s.layers.map Layer.id

/-- The invariant claimed by the spec: layer ids are unique and the active
id references an existing layer (that exactly one layer is active is
structural: `activeLayer` is a single field). -/
@[reducible] def SessionInv (s : Session) : Prop :=
  (s.layers.map Layer.id).Nodup ∧ s.activeLayer ∈ s.layers.map Layer.id

/-! ### Concrete states used by witnesses and counterexamples -/

/-- Snapshot of a blank canvas. -/
def pngBlank : Png := { image := Canvas.blank, ok := true }

/-- A canvas with one stroke segment on it. -/
def markCanvas : Canvas := Canvas.withStroke Canvas.blank 1 1 "#000000" 5

/-- Snapshot of `markCanvas`. -/
def pngMark : Png := { image := markCanvas, ok := true }

/-- A snapshot whose decode fails (the spec's malformed raster data). -/
def pngBad : Png := { image := markCanvas, ok := false }

/-- The mounted session after one completed stroke: history
`[pngBlank, pngMark]`, cursor 1. -/
def sessTwo : Session :=
  drawAction mountedSession (fun c => Canvas.withStroke c 1 1 "#000000" 5)

/-- `sessTwo` after a second completed stroke: three entries, cursor 2. -/
def sessThree : Session :=
  drawAction sessTwo (fun c => Canvas.withStroke c 2 2 "#000000" 5)

/-- `sessThree` after one undo: cursor 1, strictly inside the stack. -/
def sessMid : Session := undo sessThree

/-- `sessTwo` after one undo: two entries, cursor 0 — a state with a
forward history entry. -/
def sessUndone : Session := undo sessTwo

/-- `sessUndone` after `clearCanvas`: history `[pngBlank, pngMark, pngBlank]`
with cursor 1 — strictly inside the stack — and a blank canvas, while
`entries[1]` is the stroke snapshot.  Reachable because `clearCanvas`
appends without truncating the forward entry. -/
def sessClearMid : Session := clearCanvas sessUndone

/-- `sessTwo` with its first history entry replaced by a snapshot whose
decode fails. -/
def sessBadEntry : Session := { sessTwo with history := [pngBad, pngMark] }

/-- A session whose single layer carries a raster that fails to decode. -/
def sessBadLayer : Session :=
  { initialSession with
    layers := [{ id := "1", name := "Layer 1", visible := true, data := some pngBad }],
    canvas := markCanvas }

/-- `sessBadLayer` in the middle of a rectangle preview. -/
def sessBadPreview : Session :=
  { sessBadLayer with isDrawing := true, tool := Tool.rectangle }

/-- Two layers with decodable rasters, layer 1 active. -/
def sessTwoLayers : Session :=
  { initialSession with
    layers := [{ id := "1", name := "Layer 1", visible := true, data := some pngMark },
               { id := "2", name := "Layer 2", visible := true, data := some pngBlank }] }

/-- A store whose ids are the numerals 3 and 1 in that order: its highest
numeric id is 3, but its last id is 1. -/
def sessThreeOne : Session :=
  { initialSession with
    layers := [{ id := "3", name := "Layer 3", visible := true, data := some pngBlank },
               { id := "1", name := "Layer 1", visible := true, data := some pngBlank }],
    activeLayer := "1" }

/-- A store with layer ids 1 and 2, layer 2 active. -/
def sessOneTwo : Session :=
  { initialSession with
    layers := [{ id := "1", name := "Layer 1", visible := true, data := none },
               { id := "2", name := "Layer 2", visible := true, data := some pngBlank }],
    activeLayer := "2" }

/-- A dark-mode session with a red brush. -/
def sessDark : Session :=
  { initialSession with darkMode := true, color := "#ff0000" }

/-- `sessTwoLayers` in the middle of a rectangle preview anchored at
`(10, 10)`, its active layer raster decodable. -/
def sessPreviewOk : Session :=
  { sessTwoLayers with
    isDrawing := true, tool := Tool.rectangle, startX := 10, startY := 10 }

/-! ### Numeral lemmas -/

lemma digitVal_digitChar {d : Nat} (h : d < 10) : digitVal (digitChar d) = some d := by
  interval_cases d <;> decide

lemma parse_natDigitsAux :
    ∀ (fuel n acc : Nat) (rest : List Char), n < fuel →
      parseDigitsAux (natDigitsAux fuel n rest) acc =
        parseDigitsAux rest (acc * 10 ^ numDigitsAux fuel n + n) := by
  intro fuel
  induction fuel with
  | zero => intro n acc rest h; omega
  | succ f ih =>
    intro n acc rest h
    by_cases h10 : n < 10
    · simp only [natDigitsAux, numDigitsAux, if_pos h10, parseDigitsAux,
        digitVal_digitChar h10]
      norm_num
      ring_nf
    · have hdiv : n / 10 < f := by omega
      simp only [natDigitsAux, numDigitsAux, if_neg h10]
      rw [ih (n / 10) acc (digitChar (n % 10) :: rest) hdiv]
      have hm : n % 10 < 10 := Nat.mod_lt _ (by omega)
      simp only [parseDigitsAux, digitVal_digitChar hm]
      congr 1
      ring_nf
      omega

lemma natDigitsAux_ne_nil : ∀ (fuel n : Nat) (rest : List Char), n < fuel →
    natDigitsAux fuel n rest ≠ [] := by
  intro fuel
  induction fuel with
  | zero => intro n rest h; omega
  | succ f ih =>
    intro n rest h
    by_cases h10 : n < 10
    · simp [natDigitsAux, if_pos h10]
    · have hdiv : n / 10 < f := by omega
      simp only [natDigitsAux, if_neg h10]
      exact ih (n / 10) _ hdiv

lemma parseNat_natToString (n : Nat) : parseNat (natToString n) = some n := by
  have hne := natDigitsAux_ne_nil (n + 1) n [] (by omega)
  have h := parse_natDigitsAux (n + 1) n 0 [] (by omega)
  unfold parseNat natToString
  cases hd : natDigitsAux (n + 1) n [] with
  | nil => exact absurd hd hne
  | cons c cs =>
    simp only [String.mk]
    rw [← hd, h]
    simp [parseDigitsAux]

lemma natToString_ne_empty (n : Nat) : natToString n ≠ "" := by
  have hne := natDigitsAux_ne_nil (n + 1) n [] (by omega)
  unfold natToString
  intro hcontra
  apply hne
  have hdata : (String.mk (natDigitsAux (n + 1) n [])).data = ("" : String).data := by
    rw [hcontra]
  simpa using hdata

lemma jsParseIntD_natToString (n : Nat) : jsParseIntD (natToString n) = n := by
  unfold jsParseIntD
  rw [if_neg (natToString_ne_empty n), parseNat_natToString]
  rfl

/-! ### Layer-list lemmas -/

lemma id_updLayerData (aid : String) (d : Option Png) (l : Layer) :
    (updLayerData aid d l).id = l.id := by
  unfold updLayerData
  split <;> rfl

lemma data_updLayerData (aid : String) (d : Option Png) (l : Layer) :
    (updLayerData aid d l).data = if l.id = aid then d else l.data := by
  unfold updLayerData
  split <;> rfl

lemma find?_map_of_id (ls : List Layer) (f : Layer → Layer)
    (hf : ∀ l, (f l).id = l.id) (A : String) :
    (ls.map f).find? (fun l => l.id == A) = (ls.find? (fun l => l.id == A)).map f := by
  induction ls with
  | nil => rfl
  | cons l t ih =>
    simp only [List.map_cons, List.find?, hf l]
    cases hb : (l.id == A) with
    | true => rfl
    | false => exact ih

lemma map_id_of_pres (ls : List Layer) (f : Layer → Layer)
    (hf : ∀ l, (f l).id = l.id) :
    (ls.map f).map Layer.id = ls.map Layer.id := by
  simp only [List.map_map]
  exact List.map_congr_left fun l _ => hf l

lemma layersWF_map (ls : List Layer) (f : Layer → Layer)
    (hf : ∀ l, (f l).id = l.id) (h : layersWF ls) : layersWF (ls.map f) := by
  obtain ⟨hcanon, hchain⟩ := h
  constructor
  · intro l' hl'
    obtain ⟨l, hl, rfl⟩ := List.mem_map.1 hl'
    have : layerIdNum (f l) = layerIdNum l := by
      unfold layerIdNum
      rw [hf l]
    rw [this, hf l]
    exact hcanon l hl
  · have : (ls.map f).map layerIdNum = ls.map layerIdNum := by
      simp only [List.map_map]
      refine List.map_congr_left fun l _ => ?_
      unfold layerIdNum
      simp [Function.comp, hf l]
    rw [this]
    exact hchain

lemma nodup_of_layersWF (ls : List Layer) (h : layersWF ls) :
    (ls.map Layer.id).Nodup := by
  obtain ⟨_, hchain⟩ := h
  have hpw : (ls.map layerIdNum).Pairwise (· < ·) := List.chain'_iff_pairwise.1 hchain
  have hpw' : ls.Pairwise (fun a b => layerIdNum a < layerIdNum b) :=
    List.pairwise_map.1 hpw
  refine List.pairwise_map.2 (hpw'.imp ?_)
  intro a b hlt hEq
  have : layerIdNum a = layerIdNum b := by
    unfold layerIdNum
    rw [hEq]
  omega

/-! ### C1 -/

/-- C1 (counterexample): in the reachable state `sessUndone` (one stroke,
then one undo: two history entries, cursor 0), `clearCanvas` appends without
discarding the forward entry: afterwards the cursor is 1, not
`entries.length - 1 = 2`, and the old forward entry is still present at
index 1 — so the claimed truncation rule does not apply to `clear()`. -/
theorem c1_counterexample :
    sessUndone.currentStep = 0 ∧ sessUndone.history.length = 2 ∧
    (clearCanvas sessUndone).history.length = 3 ∧
    (clearCanvas sessUndone).currentStep = 1 ∧
    (clearCanvas sessUndone).currentStep ≠
      ((clearCanvas sessUndone).history.length : Int) - 1 ∧
    (clearCanvas sessUndone).history.get? 1 = some pngMark := by
  decide

/-- C1 (amended): for every session state with `cursor ≥ -1`, the commit
performed when a draw action completes discards `entries[cursor+1:]` before
appending whenever `cursor < entries.length - 1`, and afterwards the cursor
equals the new last index; `clear()`, however, always appends without
truncating and merely increments the cursor. -/
theorem c1_commit_truncates_clear_appends (s : Session)
    (h : -1 ≤ s.currentStep) :
    (s.currentStep < (s.history.length : Int) - 1 →
      (commitSnapshot s).history =
        s.history.take (s.currentStep + 1).toNat ++ [{ image := s.canvas, ok := true }] ∧
      (commitSnapshot s).currentStep =
        ((commitSnapshot s).history.length : Int) - 1) ∧
    ((clearCanvas s).history = s.history ++ [{ image := Canvas.blank, ok := true }] ∧
      (clearCanvas s).currentStep = s.currentStep + 1) := by
  refine ⟨fun hcond => ⟨?_, ?_⟩, ?_, ?_⟩
  · simp [commitSnapshot, if_pos hcond]
  · simp only [commitSnapshot, if_pos hcond, List.length_append, List.length_take,
      List.length_singleton]
    push_cast
    omega
  · simp [clearCanvas]
  · simp [clearCanvas]

/-- C1 (witness): the amended theorem at `sessUndone`. -/
theorem c1_witness :
    (commitSnapshot sessUndone).currentStep =
      ((commitSnapshot sessUndone).history.length : Int) - 1 ∧
    (clearCanvas sessUndone).history =
      sessUndone.history ++ [{ image := Canvas.blank, ok := true }] :=
  ⟨((c1_commit_truncates_clear_appends sessUndone (by decide)).1 (by decide)).2,
   (c1_commit_truncates_clear_appends sessUndone (by decide)).2.1⟩

/-! ### C2 -/

/-- Completed draw actions from a state whose cursor sits at the last entry
append one entry each and keep the cursor at the last entry. -/
lemma runDraws_invariant (ps : List (Canvas → Canvas)) :
    ∀ s : Session, 0 ≤ s.currentStep →
      s.currentStep = (s.history.length : Int) - 1 →
      (runDraws s ps).history.length = s.history.length + ps.length ∧
      (runDraws s ps).currentStep = s.currentStep + ps.length := by
  induction ps with
  | nil =>
    intro s h0 hlen
    simp [runDraws]
  | cons p t ih =>
    intro s h0 hlen
    simp only [runDraws, List.length_cons]
    have hstep : (drawAction s p).history.length = s.history.length + 1 ∧
        (drawAction s p).currentStep = s.currentStep + 1 := by
      unfold drawAction commitSnapshot
      have hcond : ¬ ((s.currentStep : Int) < (s.history.length : Int) - 1) := by omega
      simp [hcond]
    obtain ⟨hh, hc⟩ := hstep
    have hrec := ih (drawAction s p) (by omega) (by rw [hc, hh]; push_cast; omega)
    obtain ⟨hrh, hrc⟩ := hrec
    constructor
    · omega
    · rw [hrc, hc]
      push_cast
      ring

/-- C2 (counterexample): one completed draw action from a fresh session
leaves TWO history entries and cursor 1, not one entry and cursor 0: the
commit effect (dependency array `[isDrawing]`) also runs once on mount and
records the initial blank canvas as entry 0. -/
theorem c2_counterexample :
    (runDraws mountedSession [fun c => Canvas.withStroke c 1 1 "#000000" 5]).history.length = 2 ∧
    (runDraws mountedSession [fun c => Canvas.withStroke c 1 1 "#000000" 5]).currentStep = 1 ∧
    ¬ ((runDraws mountedSession
          [fun c => Canvas.withStroke c 1 1 "#000000" 5]).history.length = 1 ∧
        (runDraws mountedSession
          [fun c => Canvas.withStroke c 1 1 "#000000" 5]).currentStep = 0) := by
  decide

/-- C2 (amended): for every sequence of N completed draw actions from a
fresh session (no clear, undo or redo interleaved), the history holds
N + 1 entries — the mount-time commit of the blank canvas plus one per
action — and the cursor is N, the last index. -/
theorem c2_history_growth (ps : List (Canvas → Canvas)) :
    (runDraws mountedSession ps).history.length = ps.length + 1 ∧
    (runDraws mountedSession ps).currentStep = ps.length := by
  have h := runDraws_invariant ps mountedSession (by decide) (by decide)
  obtain ⟨hh, hc⟩ := h
  have h1 : mountedSession.history.length = 1 := by rfl
  have h2 : mountedSession.currentStep = 0 := by rfl
  constructor
  · omega
  · rw [hc, h2]
    ring

/-! ### C3, C4, C5 -/

/-- Replaying a history entry that decodes: the canvas and the active
layer's data become that entry. -/
lemma drawFromHistory_ok (s : Session) (step : Int) (png : Png)
    (h0 : 0 ≤ step) (hget : s.history.get? step.toNat = some png)
    (hok : png.ok = true) :
    drawFromHistory s step =
      { s with canvas := png.image,
               layers := s.layers.map (updLayerData s.activeLayer (some png)) } := by
  simp only [List.get?_eq_getElem?] at hget
  simp [drawFromHistory, if_pos h0, hget, hok]

/-- Replaying a history entry whose decode fails: the canvas is left
cleared and the layers untouched. -/
lemma drawFromHistory_fail (s : Session) (step : Int) (png : Png)
    (h0 : 0 ≤ step) (hget : s.history.get? step.toNat = some png)
    (hok : png.ok = false) :
    drawFromHistory s step = { s with canvas := Canvas.blank } := by
  simp only [List.get?_eq_getElem?] at hget
  simp [drawFromHistory, if_pos h0, hget, hok]

/-- C3 (confirmed): `undo` is a no-op whenever the cursor is at most 0;
otherwise it decrements the cursor by exactly one and replays
`entries[cursor]` (the entry at the new cursor) onto the canvas and into the
active layer's data, leaving the history itself unchanged.  Symmetrically,
`redo` is a no-op whenever the cursor is at least `entries.length - 1`, and
otherwise increments the cursor by exactly one and replays the entry at the
new cursor. -/
theorem c3_undo_redo_boundaries (s : Session) :
    (s.currentStep ≤ 0 → undo s = s) ∧
    (∀ png : Png, 0 < s.currentStep →
      s.history.get? (s.currentStep - 1).toNat = some png → png.ok = true →
      (undo s).currentStep = s.currentStep - 1 ∧
      (undo s).canvas = png.image ∧
      (undo s).layers = s.layers.map (updLayerData s.activeLayer (some png)) ∧
      (undo s).history = s.history) ∧
    ((s.history.length : Int) - 1 ≤ s.currentStep → redo s = s) ∧
    (∀ png : Png, -1 ≤ s.currentStep → s.currentStep < (s.history.length : Int) - 1 →
      s.history.get? (s.currentStep + 1).toNat = some png → png.ok = true →
      (redo s).currentStep = s.currentStep + 1 ∧
      (redo s).canvas = png.image ∧
      (redo s).layers = s.layers.map (updLayerData s.activeLayer (some png)) ∧
      (redo s).history = s.history) := by
  refine ⟨?_, ?_, ?_, ?_⟩
  · intro h
    unfold undo
    rw [if_neg (by omega)]
  · intro png h hget hok
    unfold undo
    rw [if_pos h,
      drawFromHistory_ok { s with currentStep := s.currentStep - 1 }
        (s.currentStep - 1) png (by omega) hget hok]
    exact ⟨rfl, rfl, rfl, rfl⟩
  · intro h
    unfold redo
    rw [if_neg (by omega)]
  · intro png hlo h hget hok
    unfold redo
    rw [if_pos h,
      drawFromHistory_ok { s with currentStep := s.currentStep + 1 }
        (s.currentStep + 1) png (by omega) hget hok]
    exact ⟨rfl, rfl, rfl, rfl⟩

/-- C3 (witness): at `sessTwo` (cursor 1), undo steps back to entry 0 and
replays the blank snapshot; at `sessUndone` (cursor 0), undo is a no-op and
redo steps forward to entry 1. -/
theorem c3_witness :
    ((undo sessTwo).currentStep = 0 ∧ (undo sessTwo).canvas = pngBlank.image) ∧
    undo sessUndone = sessUndone ∧
    ((redo sessUndone).currentStep = 1 ∧ (redo sessUndone).canvas = pngMark.image) := by
  have h1 := (c3_undo_redo_boundaries sessTwo).2.1 pngBlank (by decide) (by decide) (by decide)
  have h2 := (c3_undo_redo_boundaries sessUndone).1 (by decide)
  have h3 := (c3_undo_redo_boundaries sessUndone).2.2.2 pngMark (by decide) (by decide)
    (by decide) (by decide)
  exact ⟨⟨h1.1, h1.2.1⟩, h2, h3.1, h3.2.1⟩

/-- C4 (counterexample): `sessClearMid` is reachable (mount, one stroke,
undo, clear) and has cursor 1 strictly inside `[0, entries.length - 1]`,
with a blank canvas while `entries[1]` is the stroke snapshot.  There
`undo()` then `redo()` returns the cursor to 1 but replays the stroke
entry, so the canvas is NOT restored to its pre-undo (blank) pixels. -/
theorem c4_counterexample :
    0 < sessClearMid.currentStep ∧
    sessClearMid.currentStep < (sessClearMid.history.length : Int) - 1 ∧
    (redo (undo sessClearMid)).currentStep = sessClearMid.currentStep ∧
    (redo (undo sessClearMid)).canvas ≠ sessClearMid.canvas := by
  decide

/-- C4 (amended): for a cursor strictly inside the stack with both
surrounding entries decodable, `undo()` then `redo()` always leaves the
cursor at its pre-undo value and leaves the canvas showing the decode of
`entries[cursor]`; this restores the canvas pixels bit-identically exactly
when the canvas displayed `entries[cursor]` before the undo — true after
every commit or replay, but violated in reachable states such as a
`clear()` issued from mid-history. -/
theorem c4_undo_redo_cursor_replay (s : Session) (pc pp : Png)
    (h0 : 0 < s.currentStep) (h1 : s.currentStep < (s.history.length : Int) - 1)
    (hc : s.history.get? s.currentStep.toNat = some pc) (hcok : pc.ok = true)
    (hp : s.history.get? (s.currentStep - 1).toNat = some pp) (hpok : pp.ok = true) :
    (redo (undo s)).currentStep = s.currentStep ∧
    (redo (undo s)).canvas = pc.image ∧
    ((redo (undo s)).canvas = s.canvas ↔ s.canvas = pc.image) := by
  have hu : undo s =
      { s with currentStep := s.currentStep - 1, canvas := pp.image,
               layers := s.layers.map (updLayerData s.activeLayer (some pp)) } := by
    unfold undo
    rw [if_pos h0,
      drawFromHistory_ok { s with currentStep := s.currentStep - 1 }
        (s.currentStep - 1) pp (by omega) hp hpok]
  rw [hu]
  unfold redo
  have hstep : s.currentStep - 1 + 1 = s.currentStep := by ring
  rw [if_pos (show (s.currentStep - 1 : Int) < (s.history.length : Int) - 1 by omega)]
  rw [drawFromHistory_ok
      { s with currentStep := s.currentStep - 1 + 1, canvas := pp.image,
               layers := s.layers.map (updLayerData s.activeLayer (some pp)) }
      (s.currentStep - 1 + 1) pc (by omega) (by rw [hstep]; exact hc) hcok]
  exact ⟨hstep, rfl, eq_comm⟩

/-- C4 (witness): at `sessMid` (three entries, cursor 1, canvas showing
`entries[1]`), the roundtrip restores the cursor and — since the canvas
displayed the cursor's entry — the canvas pixels bit-identically. -/
theorem c4_witness :
    (redo (undo sessMid)).currentStep = sessMid.currentStep ∧
    (redo (undo sessMid)).canvas = sessMid.canvas := by
  have h := c4_undo_redo_cursor_replay sessMid pngMark pngBlank (by decide) (by decide)
    (by decide) (by decide) (by decide) (by decide)
  exact ⟨h.1, h.2.2.2 (by decide)⟩

/-- C5 (counterexample): in `sessBadEntry` (cursor 1, canvas `markCanvas`,
entry 0 a snapshot whose decode fails), `undo` does NOT leave the canvas
pixels as they were: `drawFromHistory` clears the canvas before the decode,
so the failed decode leaves it blank. -/
theorem c5_counterexample :
    (undo sessBadEntry).canvas = Canvas.blank ∧
    sessBadEntry.canvas = markCanvas ∧
    (undo sessBadEntry).canvas ≠ sessBadEntry.canvas := by
  decide

/-- C5 (amended): decode failures are never reported, and `switchLayer`
does leave the canvas pixels untouched when the target raster is absent or
fails to decode; but the undo/redo replay and the shape preview clear the
canvas before decoding, so there a failed decode leaves the canvas blank
rather than in its prior state. -/
theorem c5_decode_failure (s : Session) :
    (∀ id png, (s.layers.find? fun l => l.id == id).bind Layer.data = some png →
      png.ok = false → (switchLayer s id).canvas = s.canvas) ∧
    (∀ id, (s.layers.find? fun l => l.id == id).bind Layer.data = none →
      (switchLayer s id).canvas = s.canvas) ∧
    (∀ png, 0 < s.currentStep →
      s.history.get? (s.currentStep - 1).toNat = some png → png.ok = false →
      (undo s).canvas = Canvas.blank) ∧
    (∀ png, -1 ≤ s.currentStep → s.currentStep < (s.history.length : Int) - 1 →
      s.history.get? (s.currentStep + 1).toNat = some png → png.ok = false →
      (redo s).canvas = Canvas.blank) ∧
    (∀ x y png, s.isDrawing = true →
      (s.tool = Tool.rectangle ∨ s.tool = Tool.circle) →
      (s.layers.find? fun l => l.id == s.activeLayer).bind Layer.data = some png →
      png.ok = false → (draw s x y).canvas = Canvas.blank) := by
  refine ⟨?_, ?_, ?_, ?_, ?_⟩
  · intro id png hdata hok
    simp [switchLayer, hdata, hok]
  · intro id hdata
    simp [switchLayer, hdata]
  · intro png h hget hok
    unfold undo
    rw [if_pos h,
      drawFromHistory_fail { s with currentStep := s.currentStep - 1 }
        (s.currentStep - 1) png (by omega) hget hok]
  · intro png hlo h hget hok
    unfold redo
    rw [if_pos h,
      drawFromHistory_fail { s with currentStep := s.currentStep + 1 }
        (s.currentStep + 1) png (by omega) hget hok]
  · intro x y png hdrawing htool hdata hok
    unfold draw
    rw [hdrawing]
    rcases htool with ht | ht <;> rw [ht] <;> simp [hdata, hok]

/-- C5 (witness): a failing layer raster leaves `switchLayer`'s canvas
untouched; a failing history entry leaves the replayed canvas blank; a
failing layer raster leaves the rectangle preview blank. -/
theorem c5_witness :
    (switchLayer sessBadLayer "1").canvas = sessBadLayer.canvas ∧
    (undo sessBadEntry).canvas = Canvas.blank ∧
    (draw sessBadPreview 5 5).canvas = Canvas.blank := by
  refine ⟨(c5_decode_failure sessBadLayer).1 "1" pngBad (by decide) (by decide),
    (c5_decode_failure sessBadEntry).2.2.1 pngBad (by decide) (by decide) (by decide),
    (c5_decode_failure sessBadPreview).2.2.2.2 5 5 pngBad (by decide) (Or.inl (by decide))
      (by decide) (by decide)⟩

/-! ### C6 -/

/-- C6 (confirmed): for distinct layer ids `A ≠ B`, when layer `A` carries a
raster that decodes, the sequence `switchLayer A; switchLayer B;
switchLayer A` leaves layer `A`'s raster bit-identical to its value before
the first switch (no drawing happens while `B` is active). -/
theorem c6_switch_roundtrip (s : Session) (A B : String) (pa : Png)
    (hAB : A ≠ B) (hA : layerData s A = some (some pa)) (hok : pa.ok = true) :
    layerData (switchLayer (switchLayer (switchLayer s A) B) A) A
      = some (some pa) := by
  obtain ⟨img, ok⟩ := pa
  have hok' : ok = true := hok
  subst hok'
  unfold layerData at hA
  obtain ⟨lA, hfind, hdata⟩ := Option.map_eq_some'.1 hA
  have hidA : lA.id = A := by
    have := List.find?_some hfind
    simpa using this
  have hs1 : switchLayer s A =
      { s with
        layers := s.layers.map
          (updLayerData s.activeLayer (some { image := s.canvas, ok := true })),
        activeLayer := A, canvas := img } := by
    unfold switchLayer
    simp [hfind, hdata]
  rw [hs1]
  unfold layerData switchLayer
  rw [find?_map_of_id _ _ (fun l => id_updLayerData _ _ l) A,
      find?_map_of_id _ _ (fun l => id_updLayerData _ _ l) A,
      find?_map_of_id _ _ (fun l => id_updLayerData _ _ l) A,
      hfind]
  simp [data_updLayerData, id_updLayerData, hidA, hAB]

/-- C6 (witness): the roundtrip on `sessTwoLayers`, switching 1 → 2 → 1. -/
theorem c6_witness :
    layerData (switchLayer (switchLayer (switchLayer sessTwoLayers "1") "2") "1") "1"
      = some (some pngMark) :=
  c6_switch_roundtrip sessTwoLayers "1" "2" pngMark (by decide) (by decide) (by decide)

/-! ### C7 -/

/-- C7 (confirmed): the rectangle preview paints the axis-aligned rectangle
whose opposite corners are the anchor and the current point (anchor (10,10)
and point (50,30) give width 40 and height 20), and the circle preview
paints a circle centered at the anchor with radius `max(|dx|, |dy|)` — not
an ellipse fit to both points (anchor (10,10) and point (40,10) give radius
30); during a shape preview with a decodable active-layer raster, `draw`
paints exactly this primitive over that raster. -/
theorem c7_shape_primitives :
    (∀ ax ay x y : Int,
      shapeOf Tool.rectangle ax ay x y = Shape.rect ax ay (x - ax) (y - ay) ∧
      ax + (x - ax) = x ∧ ay + (y - ay) = y) ∧
    shapeOf Tool.rectangle 10 10 50 30 = Shape.rect 10 10 40 20 ∧
    (∀ ax ay x y : Int,
      shapeOf Tool.circle ax ay x y = Shape.circle ax ay (max |x - ax| |y - ay|)) ∧
    shapeOf Tool.circle 10 10 40 10 = Shape.circle 10 10 30 ∧
    (∀ (s : Session) (x y : Int) (png : Png), s.isDrawing = true →
      (s.tool = Tool.rectangle ∨ s.tool = Tool.circle) →
      (s.layers.find? fun l => l.id == s.activeLayer).bind Layer.data = some png →
      png.ok = true →
      (draw s x y).canvas =
        Canvas.withShape png.image (shapeOf s.tool s.startX s.startY x y)
          s.color s.brushSize) := by
  refine ⟨?_, by decide, ?_, by decide, ?_⟩
  · intro ax ay x y
    exact ⟨rfl, by ring, by ring⟩
  · intro ax ay x y
    rfl
  · intro s x y png hdraw htool hdata hok
    unfold draw
    rw [hdraw]
    rcases htool with ht | ht <;> rw [ht] <;> simp [hdata, hok, ht]

/-- C7 (witness): a rectangle preview over `sessPreviewOk` with the pointer
at (50, 30) paints the 40 × 20 rectangle over the decoded layer raster. -/
theorem c7_witness :
    (draw sessPreviewOk 50 30).canvas =
      Canvas.withShape pngMark.image (Shape.rect 10 10 40 20) "#000000" 5 := by
  have h := c7_shape_primitives.2.2.2.2 sessPreviewOk 50 30 pngMark (by decide)
    (Or.inl (by decide)) (by decide) (by decide)
  rw [h]
  rfl

/-! ### C8 -/

/-- C8 (counterexample): on the store `sessThreeOne`, whose numeric ids are
3 and 1 in that order (highest id 3, increment-of-highest 4), `addLayer`
produces id "2" — `parseInt` of the LAST layer's id plus one — not "4". -/
theorem c8_counterexample :
    sessThreeOne.layers.map Layer.id = ["3", "1"] ∧
    (∀ l ∈ sessThreeOne.layers, jsParseIntD l.id ≤ 3) ∧
    (addLayer sessThreeOne).layers.map Layer.id = ["3", "1", "2"] ∧
    ((addLayer sessThreeOne).layers.getLast?).map Layer.id ≠ some "4" := by
  decide

/-- C8 (amended): `addLayer` creates a layer whose id is the increment of
the LAST layer's numeric id — which equals the increment of the highest
numeric id whenever the last id is maximal, as it is in every store the
exposed operations build — seeds its raster with the currently displayed
canvas rather than a blank raster, appends it after all existing layers,
and makes it the active layer. -/
theorem c8_addLayer (s : Session) (last : Layer)
    (hlast : s.layers.getLast? = some last)
    (hmax : ∀ l ∈ s.layers, jsParseIntD l.id ≤ jsParseIntD last.id) :
    (addLayer s).layers =
      s.layers ++ [{ id := natToString (jsParseIntD last.id + 1),
                     name := "Layer " ++ natToString (jsParseIntD last.id + 1),
                     visible := true,
                     data := some { image := s.canvas, ok := true } }] ∧
    (addLayer s).activeLayer = natToString (jsParseIntD last.id + 1) ∧
    (∀ l ∈ s.layers, jsParseIntD l.id <
      jsParseIntD (natToString (jsParseIntD last.id + 1))) := by
  refine ⟨?_, ?_, ?_⟩
  · simp [addLayer, hlast]
  · simp [addLayer, hlast]
  · intro l hl
    rw [jsParseIntD_natToString]
    exact Nat.lt_succ_of_le (hmax l hl)

/-- C8 (witness): the amended theorem at `sessOneTwo` (ids 1 and 2): the
new layer has id "3", is appended last, and becomes active. -/
theorem c8_witness :
    (addLayer sessOneTwo).layers.map Layer.id = ["1", "2", "3"] ∧
    (addLayer sessOneTwo).activeLayer = "3" := by
  have h := c8_addLayer sessOneTwo
    { id := "2", name := "Layer 2", visible := true, data := some pngBlank }
    (by decide) (by decide)
  refine ⟨?_, ?_⟩
  · rw [h.1]
    decide
  · rw [h.2.1]
    decide

/-! ### C10 -/

/-- C10 (counterexample): in dark mode the canvas background is Tailwind
`bg-gray-700`, but after switching to the eraser the effective paint color
is the constant `#ffffff`, which is not the background color (the stored
brush color is indeed left unchanged). -/
theorem c10_counterexample :
    (setTool sessDark Tool.eraser).color = sessDark.color ∧
    effectiveStrokeStyle (setTool sessDark Tool.eraser).tool
        (setTool sessDark Tool.eraser).color
      ≠ canvasBackground (setTool sessDark Tool.eraser).darkMode := by
  decide

/-- C10 (amended): switching to the eraser forces the effective paint color
to the constant `#ffffff` — the light-theme canvas background, which
coincides with the displayed background only when dark mode is off — while
leaving the stored brush color unchanged, so switching back to the brush
restores painting in the previously selected color. -/
theorem c10_eraser_paints_white (s : Session) :
    effectiveStrokeStyle (setTool s Tool.eraser).tool
      (setTool s Tool.eraser).color = "#ffffff" ∧
    (setTool s Tool.eraser).color = s.color ∧
    canvasBackground false = "#ffffff" ∧
    effectiveStrokeStyle (setTool (setTool s Tool.eraser) Tool.brush).tool
      (setTool (setTool s Tool.eraser) Tool.brush).color = s.color := by
  exact ⟨rfl, rfl, rfl, rfl⟩

/-! ### C9 -/

/-- Session well-formedness only looks at layers and active id. -/
lemma sessionWF_of_parts (s s' : Session) (f : Layer → Layer)
    (hf : ∀ l, (f l).id = l.id)
    (hl : s'.layers = s.layers.map f) (ha : s'.activeLayer = s.activeLayer)
    (h : SessionWF s) : SessionWF s' := by
  refine ⟨?_, ?_⟩
  · rw [hl]
    exact layersWF_map _ _ hf h.1
  · rw [ha, hl, map_id_of_pres _ _ hf]
    exact h.2

lemma sessionWF_drawFromHistory (s : Session) (step : Int) (h : SessionWF s) :
    SessionWF (drawFromHistory s step) := by
  unfold drawFromHistory
  split
  · split
    · exact sessionWF_of_parts s _ _ (fun l => id_updLayerData _ _ l) rfl rfl h
    · exact h
  · exact h

lemma sessionWF_undo (s : Session) (h : SessionWF s) : SessionWF (undo s) := by
  unfold undo
  split
  · exact sessionWF_drawFromHistory _ _ h
  · exact h

lemma sessionWF_redo (s : Session) (h : SessionWF s) : SessionWF (redo s) := by
  unfold redo
  split
  · exact sessionWF_drawFromHistory _ _ h
  · exact h

lemma sessionWF_draw (s : Session) (x y : Int) (h : SessionWF s) :
    SessionWF (draw s x y) := by
  unfold draw
  split
  · exact h
  · split
    all_goals try exact h
    all_goals split
    all_goals try exact h
    all_goals split <;> exact h

lemma id_toggleVisibility (id : String) (l : Layer) :
    (if l.id = id then { l with visible := !l.visible } else l).id = l.id := by
  split <;> rfl

/-- Appending a layer whose id is the numeral after the last layer's
preserves layer-list well-formedness. -/
lemma layersWF_append_succ (ls : List Layer) (last : Layer) (nm : String)
    (vis : Bool) (d : Option Png)
    (hl : ls.getLast? = some last) (hWF : layersWF ls) :
    layersWF (ls ++ [{ id := natToString (jsParseIntD last.id + 1), name := nm,
                       visible := vis, data := d }]) := by
  obtain ⟨hcanon, hchain⟩ := hWF
  constructor
  · intro l hlmem
    rcases List.mem_append.1 hlmem with hmem | hmem
    · exact hcanon l hmem
    · have heq := List.mem_singleton.1 hmem
      subst heq
      simp [layerIdNum, jsParseIntD_natToString]
  · rw [List.map_append]
    refine List.chain'_append.2 ⟨hchain, List.chain'_singleton _, ?_⟩
    intro xx hx yy hy
    rw [List.getLast?_map, hl] at hx
    simp only [List.map_cons, List.map_nil, List.head?, Option.mem_def,
      Option.map_some', Option.some.injEq] at hx hy
    subst hx
    subst hy
    simp only [layerIdNum, jsParseIntD_natToString]
    omega

lemma sessionWF_addLayer (s : Session) (h : SessionWF s) :
    SessionWF (addLayer s) := by
  obtain ⟨hWF, hmem⟩ := h
  have hne : s.layers ≠ [] := by
    intro hnil
    rw [hnil] at hmem
    simp at hmem
  cases hl : s.layers.getLast? with
  | none => exact absurd (List.getLast?_eq_none_iff.1 hl) hne
  | some last =>
    have heq : addLayer s =
        { s with
          layers := (s.layers ++
            [Layer.mk (natToString (jsParseIntD last.id + 1))
              ("Layer " ++ natToString (jsParseIntD last.id + 1)) true
              (some (Png.mk s.canvas true))]),
          activeLayer := natToString (jsParseIntD last.id + 1) } := by
      simp [addLayer, hl]
    rw [heq]
    refine ⟨layersWF_append_succ s.layers last _ _ _ hl hWF, ?_⟩
    simp

lemma sessionWF_switchLayer (s : Session) (id : String)
    (hid : id ∈ s.layers.map Layer.id) (h : SessionWF s) :
    SessionWF (switchLayer s id) := by
  refine ⟨layersWF_map _ _ (fun l => id_updLayerData _ _ l) h.1, ?_⟩
  show id ∈ (s.layers.map
    (updLayerData s.activeLayer (some { image := s.canvas, ok := true }))).map Layer.id
  rw [map_id_of_pres _ _ (fun l => id_updLayerData _ _ l)]
  exact hid

lemma sessionWF_initial : SessionWF initialSession := by
  refine ⟨⟨?_, ?_⟩, ?_⟩
  · intro l hl
    have heq := List.mem_singleton.1 hl
    subst heq
    rfl
  · exact List.chain'_singleton _
  · exact List.mem_singleton.2 rfl

/-- C9 (counterexample): `switchLayer` sets the active id unconditionally,
so calling it with an id naming no layer — here "2" on the initial
single-layer store — breaks the invariant that `activeLayerId` references
an existing layer. -/
theorem c9_counterexample :
    SessionInv initialSession ∧
    ¬ SessionInv (switchLayer initialSession "2") := by
  decide

/-- C9 (amended): on well-formed sessions (canonical, strictly increasing
numeric layer ids — true of every state the program reaches), the exposed
operations preserve well-formedness, hence the invariant that layer ids are
unique and the active id references an existing layer (exactly one layer is
active by construction: `activeLayer` is a single field); for
`switchLayer`, this holds provided its argument names an existing layer —
for other arguments the invariant is broken, as the counterexample shows.
Well-formedness holds of the initial state. -/
theorem c9_invariant_preservation (s : Session) (t : Tool) (id : String)
    (x y : Int) (hWF : SessionWF s) :
    SessionInv s ∧ SessionWF initialSession ∧
    SessionWF (setTool s t) ∧ SessionWF (commitSnapshot s) ∧
    SessionWF (clearCanvas s) ∧ SessionWF (undo s) ∧ SessionWF (redo s) ∧
    SessionWF (toggleLayerVisibility s id) ∧ SessionWF (draw s x y) ∧
    SessionWF (addLayer s) ∧
    (id ∈ s.layers.map Layer.id → SessionWF (switchLayer s id)) := by
  refine ⟨⟨nodup_of_layersWF _ hWF.1, hWF.2⟩, sessionWF_initial, hWF,
    sessionWF_of_parts s _ _ (fun l => id_updLayerData _ _ l) rfl rfl hWF,
    sessionWF_of_parts s _ _ (fun l => id_updLayerData _ _ l) rfl rfl hWF,
    sessionWF_undo s hWF, sessionWF_redo s hWF,
    sessionWF_of_parts s _ _ (fun l => id_toggleVisibility id l) rfl rfl hWF,
    sessionWF_draw s x y hWF, sessionWF_addLayer s hWF,
    fun hid => sessionWF_switchLayer s id hid hWF⟩

/-- C9 (witness): the preservation theorem at the initial session. -/
theorem c9_witness :
    SessionInv initialSession ∧ SessionWF (addLayer initialSession) ∧
    SessionWF (switchLayer initialSession "1") := by
  have h := c9_invariant_preservation initialSession Tool.brush "1" 0 0 sessionWF_initial
  exact ⟨h.1, h.2.2.2.2.2.2.2.2.2.1,
    h.2.2.2.2.2.2.2.2.2.2 (List.mem_singleton.2 rfl)⟩

end Sketch
